import Mathlib

/-!
Shallow embedding of the node-orm-demo data/association layer: Sequelize
models (User, Profile, Post, Tag, PostTag), their controller operations, and
the transactional composite write `createPost`.  The database is an explicit
state (`DB`); every controller action is a function from a state (and a
request) to a response paired with the successor state.  Storage-level
failures that Sequelize could surface mid-operation are injected through
explicit fault flags, mirroring the forced-failure scenarios of the spec.

Transaction semantics: statements executed with the `{ transaction }` option
are buffered and take effect only at commit; statements executed without it
(`Tag.findOrCreate` in `createPost`, the `afterCreate` hook's `findByPk`)
autocommit directly against the shared state.
-/

namespace NodeOrmDemo

/-- The Post status ENUM ('active', 'draft', 'archived'). -/
inductive Status where
  | active
  | draft
  | archived
deriving DecidableEq, Repr

/-- A row of the Users table (models/user.js): firstName, lastName and email
are all `allowNull: false`; email additionally carries `unique: true` and the
`isEmail` validator. -/
structure UserRow where
  id : Nat
  firstName : String
  lastName : String
  email : String
deriving DecidableEq, Repr

/-- A row of the Profiles table (models/profile.js): nullable bio, non-null
userId foreign key. -/
structure ProfileRow where
  id : Nat
  bio : Option String
  userId : Nat
deriving DecidableEq, Repr

/-- A row of the Posts table (models/post.js): non-null title, content and
userId, ENUM status defaulting to 'draft', and the createdAt timestamp used
by the list ordering. -/
structure PostRow where
  id : Nat
  title : String
  content : String
  userId : Nat
  status : Status
  createdAt : Nat
deriving DecidableEq, Repr

/-- A row of the Tags table (models/tag.js): non-null name, no uniqueness
constraint. -/
structure TagRow where
  id : Nat
  name : String
deriving DecidableEq, Repr

/-- A row of the PostTags join table (models/postTag.js). -/
structure PostTagRow where
  postId : Nat
  tagId : Nat
deriving DecidableEq, Repr

/-- The committed database state, together with the auto-increment counters
and a clock supplying createdAt timestamps. -/
structure DB where
  users : List UserRow
  profiles : List ProfileRow
  posts : List PostRow
  tags : List TagRow
  postTags : List PostTagRow
  nextUserId : Nat
  nextProfileId : Nat
  nextPostId : Nat
  nextTagId : Nat
  clock : Nat
deriving DecidableEq, Repr

/-- The freshly synced database (utils/sync.js drops and recreates all
tables). -/
def emptyDB : DB :=
  { users := [], profiles := [], posts := [], tags := [], postTags := []
    nextUserId := 1, nextProfileId := 1, nextPostId := 1, nextTagId := 1
    clock := 0 }

/-- An error response: HTTP status code plus the error message the controller
serializes. -/
structure ErrResp where
  code : Nat
  msg : String
deriving DecidableEq, Repr

/-- The single combined not-found response of postTagController (both the
missing-post and the missing-tag cause produce this same value). -/
def postOrTagNotFound : ErrResp := ⟨404, "Post or Tag not found"⟩

def findUser (db : DB) (id : Nat) : Option UserRow :=
  db.users.find? (fun u => u.id == id)

def findProfileByUserId (db : DB) (userId : Nat) : Option ProfileRow :=
  db.profiles.find? (fun p => p.userId == userId)

def findPost (db : DB) (id : Nat) : Option PostRow :=
  db.posts.find? (fun p => p.id == id)

def findTagById (db : DB) (id : Nat) : Option TagRow :=
  db.tags.find? (fun t => t.id == id)

def findTagByName (db : DB) (n : String) : Option TagRow :=
  db.tags.find? (fun t => t.name == n)

/-- Abstraction of the `isEmail` validator on User.email: exactly one
at-sign separating a non-empty local part from a non-empty domain part. -/
def isEmailShape (s : String) : Bool :=
  s.data.count '@' == 1 &&
    !(s.data.takeWhile (fun c => c != '@')).isEmpty &&
    !((s.data.dropWhile (fun c => c != '@')).tail).isEmpty

/-- Decidable equality of responses (used to evaluate the concrete
witnesses). -/
instance {ε α : Type} [DecidableEq ε] [DecidableEq α] : DecidableEq (Except ε α) :=
  fun x y =>
    match x, y with
    | .ok a, .ok b =>
      if h : a = b then isTrue (by rw [h]) else isFalse (by simp [h])
    | .error a, .error b =>
      if h : a = b then isTrue (by rw [h]) else isFalse (by simp [h])
    | .ok _, .error _ => isFalse (by simp)
    | .error _, .ok _ => isFalse (by simp)

/-- Request body of userController.createUser; absent fields are `none`. -/
structure CreateUserReq where
  firstName : Option String
  lastName : Option String
  email : Option String
deriving DecidableEq, Repr

/-- userController.createUser: `User.create({ firstName, lastName, email })`.
Sequelize rejects an absent required field (notNull), a malformed email
(isEmail validator), and a duplicate email (the unique constraint on the
email column); every rejection reaches the catch and becomes a 400 with no
row inserted. -/
def createUser (db : DB) (req : CreateUserReq) :
    Except ErrResp UserRow × DB :=
  match req.firstName, req.lastName, req.email with
  | some fn, some ln, some em =>
    if !isEmailShape em then
      (.error ⟨400, "Validation error: Validation isEmail on email failed"⟩, db)
    else if db.users.any (fun v => v.email == em) then
      (.error ⟨400, "Validation error: email must be unique"⟩, db)
    else
      let u : UserRow := ⟨db.nextUserId, fn, ln, em⟩
      (.ok u, { db with users := db.users ++ [u], nextUserId := db.nextUserId + 1 })
  | _, _, _ => (.error ⟨400, "notNull Violation"⟩, db)

/-- Request body of userController.updateUser; absent fields are `none` and
are dropped from the UPDATE's SET clause. -/
structure UpdateUserReq where
  firstName : Option String
  lastName : Option String
  email : Option String
deriving DecidableEq, Repr

/-- The per-row effect of `User.update({ firstName, lastName, email },
{ where: { id } })`: rows matching the id take the supplied fields, absent
fields keep their stored value. -/
def applyUserUpdate (req : UpdateUserReq) (id : Nat) (u : UserRow) : UserRow :=
  if u.id == id then
    { u with firstName := req.firstName.getD u.firstName
             lastName := req.lastName.getD u.lastName
             email := req.email.getD u.email }
  else u

/-- userController.updateUser: validators run on the changed fields, the
UPDATE then hits the unique email constraint when it would duplicate another
row's email; zero affected rows yield the 404, otherwise the row is
re-fetched and returned. -/
def updateUser (db : DB) (id : Nat) (req : UpdateUserReq) :
    Except ErrResp (Option UserRow) × DB :=
  let emailOk := match req.email with
    | some em => isEmailShape em
    | none => true
  if !emailOk then
    (.error ⟨400, "Validation error: Validation isEmail on email failed"⟩, db)
  else
    let dup := match req.email with
      | some em =>
        db.users.any (fun v => v.id == id) &&
          db.users.any (fun v => v.email == em && v.id != id)
      | none => false
    if dup then
      (.error ⟨400, "Validation error: email must be unique"⟩, db)
    else if db.users.any (fun v => v.id == id) then
      let db' := { db with users := db.users.map (applyUserUpdate req id) }
      (.ok (findUser db' id), db')
    else
      (.error ⟨404, "User not found"⟩, db)

/-- userController.deleteUser: `User.destroy({ where: { id } })`; zero deleted
rows yield the 404. -/
def deleteUser (db : DB) (id : Nat) : Except ErrResp Unit × DB :=
  if db.users.any (fun v => v.id == id) then
    (.ok (), { db with users := db.users.filter (fun v => v.id != id) })
  else
    (.error ⟨404, "User not found"⟩, db)

/-- profileController.createProfile: the user must exist, then
`Profile.create({ bio, userId })`. -/
def createProfile (db : DB) (bio : Option String) (userId : Option Nat) :
    Except ErrResp ProfileRow × DB :=
  match userId.bind (findUser db) with
  | none => (.error ⟨404, "User not found"⟩, db)
  | some u =>
    let pr : ProfileRow := ⟨db.nextProfileId, bio, u.id⟩
    (.ok pr, { db with profiles := db.profiles ++ [pr]
                       nextProfileId := db.nextProfileId + 1 })

/-- profileController.updateProfile: `Profile.update({ bio }, { where:
{ userId } })`; an absent bio is dropped from the SET clause; zero affected
rows yield the 404. -/
def updateProfile (db : DB) (userId : Nat) (bio : Option String) :
    Except ErrResp (Option ProfileRow) × DB :=
  if db.profiles.any (fun p => p.userId == userId) then
    let db' := { db with profiles := db.profiles.map (fun p =>
      if p.userId == userId then { p with bio := match bio with | some b => some b | none => p.bio } else p) }
    (.ok (findProfileByUserId db' userId), db')
  else
    (.error ⟨404, "Profile not found"⟩, db)

/-- profileController.deleteProfile: `Profile.destroy({ where: { userId } })`. -/
def deleteProfile (db : DB) (userId : Nat) : Except ErrResp Unit × DB :=
  if db.profiles.any (fun p => p.userId == userId) then
    (.ok (), { db with profiles := db.profiles.filter (fun p => p.userId != userId) })
  else
    (.error ⟨404, "Profile not found"⟩, db)

/-- tagController.createTag: `Tag.create({ name })`; the name column is
allowNull false, so only an absent name is rejected. -/
def createTag (db : DB) (name : Option String) :
    Except ErrResp TagRow × DB :=
  match name with
  | none => (.error ⟨400, "notNull Violation"⟩, db)
  | some n =>
    let t : TagRow := ⟨db.nextTagId, n⟩
    (.ok t, { db with tags := db.tags ++ [t], nextTagId := db.nextTagId + 1 })

/-- tagController.updateTag: `Tag.update({ name }, { where: { id } })`. -/
def updateTag (db : DB) (id : Nat) (name : Option String) :
    Except ErrResp (Option TagRow) × DB :=
  if db.tags.any (fun t => t.id == id) then
    let db' := { db with tags := db.tags.map (fun t =>
      if t.id == id then { t with name := name.getD t.name } else t) }
    (.ok (findTagById db' id), db')
  else
    (.error ⟨404, "Tag not found"⟩, db)

/-- tagController.deleteTag: `Tag.destroy({ where: { id } })`. -/
def deleteTag (db : DB) (id : Nat) : Except ErrResp Unit × DB :=
  if db.tags.any (fun t => t.id == id) then
    (.ok (), { db with tags := db.tags.filter (fun t => t.id != id) })
  else
    (.error ⟨404, "Tag not found"⟩, db)

/-- Request body of postController.createPost. `status || 'draft'` makes an
absent status default to draft; tags is the optional array of tag names. -/
structure CreateReq where
  title : Option String
  content : Option String
  userId : Option Nat
  tags : Option (List String)
  status : Option Status
deriving DecidableEq, Repr

/-- Storage-level failures injectable into one createPost invocation:
`hookFails` makes the afterCreate hook's `User.findByPk` reject,
`tagFails` marks which of the per-name `Tag.findOrCreate` calls reject, and
`linkFails` makes `post.addTags` reject. -/
structure CreateFaults where
  hookFails : Bool
  tagFails : List Bool
  linkFails : Bool
deriving DecidableEq, Repr

/-- A fault-free invocation. -/
def noFaults : CreateFaults := ⟨false, [], false⟩

/-- The `tags.map(tagName => Tag.findOrCreate({ where: { name: tagName } }))`
loop of createPost.  The `{ transaction }` option is NOT passed, so each
find-or-create autocommits straight into the shared state.  `Promise.all`
semantics: when one call rejects, the others still take effect; the result
reports the resolved rows and whether any call rejected. -/
def findOrCreateTags : DB → List String → List Bool → DB × List TagRow × Bool
  | db, [], _ => (db, [], false)
  | db, n :: ns, fs =>
    let f := fs.headD false
    let rest := fs.tail
    if f then
      let r := findOrCreateTags db ns rest
      (r.1, r.2.1, true)
    else
      match findTagByName db n with
      | some t =>
        let r := findOrCreateTags db ns rest
        (r.1, t :: r.2.1, r.2.2)
      | none =>
        let t : TagRow := ⟨db.nextTagId, n⟩
        let db1 := { db with tags := db.tags ++ [t], nextTagId := db.nextTagId + 1 }
        let r := findOrCreateTags db1 ns rest
        (r.1, t :: r.2.1, r.2.2)

/-- postController.createPost.  Order of effects, mirroring the source:
open a transaction; `User.findByPk(userId)` (autocommit read, 400 'User not
found' if missing); `Post.create({...}, { transaction })`, which checks the
allowNull constraints on title and content, buffers the INSERT, and then runs
the afterCreate hook (whose own `findByPk` is an autocommit read — a hook
rejection propagates out of create, reaching the catch, which rolls the
buffered insert back); `Tag.findOrCreate` per name without the transaction
(autocommitted even if the invocation later fails); `post.addTags(...,
{ transaction })` buffering the join inserts; commit.  Any rejection reaches
the catch: rollback discards the buffered post and join rows (but not the
autocommitted tags) and a 400 with the error message is returned. -/
def createPost (db : DB) (req : CreateReq) (faults : CreateFaults) :
    Except ErrResp PostRow × DB :=
  match req.userId.bind (findUser db) with
  | none => (.error ⟨400, "User not found"⟩, db)
  | some _ =>
    match req.title, req.content, req.userId with
    | some title, some content, some uid =>
      let post : PostRow :=
        ⟨db.nextPostId, title, content, uid, req.status.getD .draft, db.clock⟩
      if faults.hookFails then
        (.error ⟨400, "storage failure"⟩, db)
      else
        match req.tags with
        | some tagNames =>
          if tagNames.length > 0 then
            let r := findOrCreateTags db tagNames faults.tagFails
            let db1 := r.1
            if r.2.2 then
              (.error ⟨400, "storage failure"⟩, db1)
            else if faults.linkFails then
              (.error ⟨400, "storage failure"⟩, db1)
            else
              let joins := r.2.1.map (fun t => PostTagRow.mk post.id t.id)
              (.ok post,
                { db1 with posts := db1.posts ++ [post]
                           postTags := db1.postTags ++ joins
                           nextPostId := db1.nextPostId + 1
                           clock := db1.clock + 1 })
          else
            (.ok post,
              { db with posts := db.posts ++ [post]
                        nextPostId := db.nextPostId + 1
                        clock := db.clock + 1 })
        | none =>
          (.ok post,
            { db with posts := db.posts ++ [post]
                      nextPostId := db.nextPostId + 1
                      clock := db.clock + 1 })
    | _, _, _ => (.error ⟨400, "notNull Violation"⟩, db)

/-- Query string of postController.getAllPosts; absent parameters are `none`
and take the source's defaults (page 1, limit 10, status 'active'). -/
structure ListQuery where
  page : Option Nat
  limit : Option Nat
  status : Option String
deriving DecidableEq, Repr

/-- The named scopes of the Post model (models/post.js): each is a predicate
on the status column; any other name is undefined and makes `Post.scope`
throw. -/
def scopePred (s : String) : Option (PostRow → Bool) :=
  if s = "active" then some (fun p => p.status == Status.active)
  else if s = "archived" then some (fun p => p.status == Status.archived)
  else if s = "draft" then some (fun p => p.status == Status.draft)
  else none

/-- The `order: [['createdAt', 'DESC']]` clause. -/
def orderByCreatedAtDesc (l : List PostRow) : List PostRow :=
  l.insertionSort (fun a b => b.createdAt ≤ a.createdAt)

/-- The page payload of getAllPosts: the rows of the requested page,
`totalPages = ceil(count / limit)` and the requested page number. -/
structure PageResult where
  posts : List PostRow
  totalPages : Nat
  currentPage : Nat
deriving DecidableEq, Repr

/-- The number of rows one matching Post contributes to the COUNT query of
`findAndCountAll({ include: [User, Tag] })` without `distinct: true`: the
LEFT OUTER JOIN to Users yields one row per matching author row (at least
one), and the LEFT OUTER JOIN to (PostTags INNER JOIN Tags) yields one row
per join row whose tagId resolves to a Tag row (at least one), so a post
with several linked tags is counted several times. -/
def includeRowCount (db : DB) (p : PostRow) : Nat :=
  max 1 (db.users.countP (fun u => u.id == p.userId)) *
    max 1 (((db.postTags.filter (fun j => j.postId == p.id)).map
      (fun j => db.tags.countP (fun t => t.id == j.tagId))).sum)

/-- postController.getAllPosts: defaults page 1, limit 10, status 'active';
`offset = (page - 1) * limit`; `Post.scope(status)` throws on an unknown
scope name (caught as a 500); otherwise findAndCountAll filters by the
scope, orders by createdAt descending, and slices the page of distinct Post
rows (the limit applies in a subquery), while its count — lacking
`distinct: true` under the `include: [User, Tag]` joins — is the
join-multiplied row count, from which `totalPages = ceil(count / limit)` is
computed. -/
def getAllPosts (db : DB) (q : ListQuery) : Except ErrResp PageResult :=
  let page := q.page.getD 1
  let limit := q.limit.getD 10
  let status := q.status.getD "active"
  let offset := (page - 1) * limit
  match scopePred status with
  | none => .error ⟨500, "Invalid scope " ++ status ++ " called"⟩
  | some pred =>
    let matching := orderByCreatedAtDesc (db.posts.filter pred)
    let count := ((db.posts.filter pred).map (includeRowCount db)).sum
    .ok ⟨(matching.drop offset).take limit,
         (count + limit - 1) / limit,
         page⟩

/-- The payload of getPostById: the post with its eagerly included User and
Tags (one tag per join row whose tagId resolves). -/
structure PostView where
  post : PostRow
  user : Option UserRow
  tags : List TagRow
deriving DecidableEq, Repr

/-- postController.getPostById: `Post.findByPk(id, { include: [User, Tag] })`;
404 when no row matches. -/
def getPostById (db : DB) (id : Nat) : Except ErrResp PostView :=
  match findPost db id with
  | none => .error ⟨404, "Post not found"⟩
  | some p =>
    .ok ⟨p, findUser db p.userId,
         (db.postTags.filter (fun j => j.postId == p.id)).filterMap
           (fun j => findTagById db j.tagId)⟩

/-- Request body of postController.updatePost. -/
structure UpdatePostReq where
  title : Option String
  content : Option String
  status : Option Status
deriving DecidableEq, Repr

/-- postController.updatePost: the guard `if (title && title.length < 5)`
fires only for a present, truthy (non-empty) title shorter than 5 characters;
then `Post.update({ title, content, status }, { where: { id } })` with absent
fields dropped from the SET clause, a 404 on zero affected rows, and a
re-fetch of the row on success (serialized even if the re-fetch misses). -/
def updatePost (db : DB) (id : Nat) (req : UpdatePostReq) :
    Except ErrResp (Option PostRow) × DB :=
  match req.title with
  | some t =>
    if t ≠ "" ∧ t.length < 5 then
      (.error ⟨400, "Title must be at least 5 characters long."⟩, db)
    else
      updatePostApply db id req
  | none => updatePostApply db id req
where
  /-- The UPDATE + re-fetch part of updatePost. -/
  updatePostApply (db : DB) (id : Nat) (req : UpdatePostReq) :
      Except ErrResp (Option PostRow) × DB :=
    if db.posts.any (fun p => p.id == id) then
      let db' := { db with posts := db.posts.map (fun p =>
        if p.id == id then
          { p with title := req.title.getD p.title
                   content := req.content.getD p.content
                   status := req.status.getD p.status }
        else p) }
      (.ok (findPost db' id), db')
    else
      (.error ⟨404, "Post not found"⟩, db)

/-- postController.deletePost: `Post.destroy({ where: { id } })`. -/
def deletePost (db : DB) (id : Nat) : Except ErrResp Unit × DB :=
  if db.posts.any (fun p => p.id == id) then
    (.ok (), { db with posts := db.posts.filter (fun p => p.id != id) })
  else
    (.error ⟨404, "Post not found"⟩, db)

/-- postTagController.addTagToPost: both lookups run, a miss of either yields
the single combined 404; `post.addTag(tag)` then inserts the join row unless
the pairing is already associated. -/
def addTagToPost (db : DB) (postId : Option Nat) (tagId : Option Nat) :
    Except ErrResp String × DB :=
  match postId.bind (findPost db), tagId.bind (findTagById db) with
  | some p, some t =>
    if db.postTags.any (fun j => j.postId == p.id && j.tagId == t.id) then
      (.ok "Tag added to post successfully", db)
    else
      (.ok "Tag added to post successfully",
       { db with postTags := db.postTags ++ [⟨p.id, t.id⟩] })
  | _, _ => (.error postOrTagNotFound, db)

/-- postTagController.removeTagFromPost: both lookups run, a miss of either
yields the single combined 404; `post.removeTag(tag)` deletes the matching
join rows (deleting zero rows is not an error). -/
def removeTagFromPost (db : DB) (postId : Option Nat) (tagId : Option Nat) :
    Except ErrResp String × DB :=
  match postId.bind (findPost db), tagId.bind (findTagById db) with
  | some p, some t =>
    (.ok "Tag removed from post successfully",
     { db with postTags :=
         db.postTags.filter (fun j => !(j.postId == p.id && j.tagId == t.id)) })
  | _, _ => (.error postOrTagNotFound, db)

/-- One state-mutating boundary operation of the application (every
controller action that can write, with its request payload; reads are
omitted as they do not change the state). -/
inductive Op where
  | createUser (req : CreateUserReq)
  | updateUser (id : Nat) (req : UpdateUserReq)
  | deleteUser (id : Nat)
  | createProfile (bio : Option String) (userId : Option Nat)
  | updateProfile (userId : Nat) (bio : Option String)
  | deleteProfile (userId : Nat)
  | createPost (req : CreateReq) (faults : CreateFaults)
  | updatePost (id : Nat) (req : UpdatePostReq)
  | deletePost (id : Nat)
  | createTag (name : Option String)
  | updateTag (id : Nat) (name : Option String)
  | deleteTag (id : Nat)
  | addTagToPost (postId tagId : Option Nat)
  | removeTagFromPost (postId tagId : Option Nat)
deriving Repr

/-- The state transition of one operation (the response is discarded). -/
def step (db : DB) : Op → DB
  | .createUser req => (createUser db req).2
  | .updateUser id req => (updateUser db id req).2
  | .deleteUser id => (deleteUser db id).2
  | .createProfile bio userId => (createProfile db bio userId).2
  | .updateProfile userId bio => (updateProfile db userId bio).2
  | .deleteProfile userId => (deleteProfile db userId).2
  | .createPost req faults => (createPost db req faults).2
  | .updatePost id req => (updatePost db id req).2
  | .deletePost id => (deletePost db id).2
  | .createTag name => (createTag db name).2
  | .updateTag id name => (updateTag db id name).2
  | .deleteTag id => (deleteTag db id).2
  | .addTagToPost postId tagId => (addTagToPost db postId tagId).2
  | .removeTagFromPost postId tagId => (removeTagFromPost db postId tagId).2

/-- The state after running a sequence of operations from the freshly synced
database. -/
def runOps (ops : List Op) : DB := ops.foldl step emptyDB

/-- The reachable states: those produced by some sequence of boundary
operations. -/
def Reachable (db : DB) : Prop := ∃ ops, runOps ops = db

/-- A small seeded history: one registered user. -/
def seedOps : List Op := [.createUser ⟨some "Alice", some "J", some "alice@example.com"⟩]

/-- The state after `seedOps`: exactly the user Alice with id 1. -/
def seedDB : DB := runOps seedOps

/-- Seeded history with one draft post authored by Alice. -/
def draftPostOps : List Op :=
  seedOps ++ [.createPost ⟨some "Hello world", some "Body", some 1, none, none⟩ noFaults]

/-- The state after `draftPostOps`. -/
def draftPostDB : DB := runOps draftPostOps

/-- Frame property of the autocommitted find-or-create loop: it touches only
the tags table and its id counter; every other component of the state is
unchanged. -/
lemma findOrCreateTags_frame : ∀ (names : List String) (db : DB) (fs : List Bool),
    (findOrCreateTags db names fs).1.users = db.users ∧
    (findOrCreateTags db names fs).1.profiles = db.profiles ∧
    (findOrCreateTags db names fs).1.posts = db.posts ∧
    (findOrCreateTags db names fs).1.postTags = db.postTags ∧
    (findOrCreateTags db names fs).1.nextUserId = db.nextUserId ∧
    (findOrCreateTags db names fs).1.nextProfileId = db.nextProfileId ∧
    (findOrCreateTags db names fs).1.nextPostId = db.nextPostId ∧
    (findOrCreateTags db names fs).1.clock = db.clock := by
  intro names
  induction names with
  | nil => intro db fs; simp [findOrCreateTags]
  | cons n ns ih =>
    intro db fs
    simp only [findOrCreateTags]
    split
    · simpa using ih db fs.tail
    · split
      · simpa using ih db fs.tail
      · simpa using ih _ fs.tail

/-- The committed tags table only grows during the find-or-create loop: the
final tags list extends the initial one. -/
lemma findOrCreateTags_tags_grow : ∀ (names : List String) (db : DB) (fs : List Bool),
    ∃ ts, (findOrCreateTags db names fs).1.tags = db.tags ++ ts := by
  intro names
  induction names with
  | nil => intro db fs; exact ⟨[], by simp [findOrCreateTags]⟩
  | cons n ns ih =>
    intro db fs
    simp only [findOrCreateTags]
    split
    · simpa using ih db fs.tail
    · split
      · simpa using ih db fs.tail
      · obtain ⟨ts, hts⟩ := ih { db with tags := db.tags ++ [⟨db.nextTagId, n⟩]
                                         nextTagId := db.nextTagId + 1 } fs.tail
        exact ⟨⟨db.nextTagId, n⟩ :: ts, by simpa using hts⟩

/-- C1 (amended): when a createPost invocation fails at any point after the
transaction is opened, the rollback removes the buffered Content row and
join rows — the posts and postTags tables (and the users table) are exactly
as before — but Tag rows created by the non-transactional find-or-create
step survive: the tags table is the old one possibly extended by the newly
autocommitted Tag rows. -/
theorem c1_failed_create_rolls_back_posts_and_joins (db : DB) (req : CreateReq)
    (faults : CreateFaults) (e : ErrResp)
    (h : (createPost db req faults).1 = Except.error e) :
    (createPost db req faults).2.posts = db.posts ∧
    (createPost db req faults).2.postTags = db.postTags ∧
    (createPost db req faults).2.users = db.users ∧
    ∃ ts, (createPost db req faults).2.tags = db.tags ++ ts := by
  cases hu : req.userId.bind (findUser db) with
  | none =>
    refine ⟨?_, ?_, ?_, [], ?_⟩ <;> simp [createPost, hu]
  | some u =>
    obtain ⟨uid, huid, hfind⟩ :
        ∃ uid, req.userId = some uid ∧ findUser db uid = some u := by
      cases hq : req.userId with
      | none => rw [hq] at hu; simp at hu
      | some uid => rw [hq] at hu; exact ⟨uid, rfl, by simpa using hu⟩
    cases ht : req.title with
    | none =>
      refine ⟨?_, ?_, ?_, [], ?_⟩ <;> simp [createPost, huid, hfind, ht]
    | some t =>
      cases hc : req.content with
      | none =>
        refine ⟨?_, ?_, ?_, [], ?_⟩ <;> simp [createPost, huid, hfind, ht, hc]
      | some c =>
        cases hh : faults.hookFails with
        | true =>
          refine ⟨?_, ?_, ?_, [], ?_⟩ <;> simp [createPost, huid, hfind, ht, hc, hh]
        | false =>
          cases htg : req.tags with
          | none =>
            exfalso
            rw [createPost] at h
            simp [huid, hfind, ht, hc, hh, htg] at h
          | some tagNames =>
            by_cases hl : tagNames.length > 0
            · obtain ⟨hus, -, hps, hjs, -⟩ :=
                findOrCreateTags_frame tagNames db faults.tagFails
              obtain ⟨ts, hts⟩ := findOrCreateTags_tags_grow tagNames db faults.tagFails
              cases hrb : (findOrCreateTags db tagNames faults.tagFails).2.2 with
              | true =>
                refine ⟨?_, ?_, ?_, ts, ?_⟩ <;>
                  simp [createPost, huid, hfind, ht, hc, hh, htg, hl, hrb,
                        hus, hps, hjs, hts]
              | false =>
                cases hlf : faults.linkFails with
                | true =>
                  refine ⟨?_, ?_, ?_, ts, ?_⟩ <;>
                    simp [createPost, huid, hfind, ht, hc, hh, htg, hl, hrb, hlf,
                          hus, hps, hjs, hts]
                | false =>
                  exfalso
                  rw [createPost] at h
                  simp [huid, hfind, ht, hc, hh, htg, hl, hrb, hlf] at h
            · exfalso
              rw [createPost] at h
              simp [huid, hfind, ht, hc, hh, htg, hl] at h

/-- C1 (witness): a concrete failed invocation exercising the amended
theorem — linking fails, and afterward the posts and join tables are exactly
the old ones while the tags table only grew. -/
theorem c1_failed_create_rolls_back_witness :
    (createPost seedDB ⟨some "Hello", some "Body", some 1, some ["fresh"], none⟩
        ⟨false, [], true⟩).2.posts = seedDB.posts ∧
    (createPost seedDB ⟨some "Hello", some "Body", some 1, some ["fresh"], none⟩
        ⟨false, [], true⟩).2.postTags = seedDB.postTags ∧
    (createPost seedDB ⟨some "Hello", some "Body", some 1, some ["fresh"], none⟩
        ⟨false, [], true⟩).2.users = seedDB.users ∧
    ∃ ts, (createPost seedDB ⟨some "Hello", some "Body", some 1, some ["fresh"], none⟩
        ⟨false, [], true⟩).2.tags = seedDB.tags ++ ts :=
  c1_failed_create_rolls_back_posts_and_joins seedDB
    ⟨some "Hello", some "Body", some 1, some ["fresh"], none⟩
    ⟨false, [], true⟩ ⟨400, "storage failure"⟩ (by decide)

/-- C1 (counterexample): the claim as stated is false — in this failed
invocation (the link step fails after the tag find-or-create ran), the
transaction is rolled back and yet the Tag row named "fresh", created within
the failed invocation, survives in storage. -/
theorem c1_new_tag_survives_failed_create :
    (createPost seedDB ⟨some "Hello", some "Body", some 1, some ["fresh"], none⟩
        ⟨false, [], true⟩).1 = Except.error ⟨400, "storage failure"⟩ ∧
    seedDB.tags.any (fun t => t.name == "fresh") = false ∧
    (createPost seedDB ⟨some "Hello", some "Body", some 1, some ["fresh"], none⟩
        ⟨false, [], true⟩).2.tags.any (fun t => t.name == "fresh") = true := by
  decide

/-- C2 (amended): a failure thrown by the afterCreate hook propagates out of
`Post.create`: in createPost it reaches the catch, the transaction is rolled
back — the freshly inserted Content row does not survive — and the error is
surfaced to the caller as a 400 response. -/
theorem c2_hook_failure_rolls_back_and_propagates (db : DB) (req : CreateReq)
    (faults : CreateFaults) (hhook : faults.hookFails = true) (u : UserRow)
    (hu : req.userId.bind (findUser db) = some u)
    (t c : String) (ht : req.title = some t) (hc : req.content = some c) :
    (createPost db req faults).1 = Except.error ⟨400, "storage failure"⟩ ∧
    (createPost db req faults).2 = db := by
  obtain ⟨uid, huid, hfind⟩ :
      ∃ uid, req.userId = some uid ∧ findUser db uid = some u := by
    cases hq : req.userId with
    | none => rw [hq] at hu; simp at hu
    | some uid => rw [hq] at hu; exact ⟨uid, rfl, by simpa using hu⟩
  constructor <;> simp [createPost, huid, hfind, ht, hc, hhook]

/-- C2 (witness): the amended theorem at a concrete state — the hook's
lookup rejects, the response is the 400 error and the database (in
particular the posts table) is exactly as before the call. -/
theorem c2_hook_failure_witness :
    (createPost seedDB ⟨some "Hello", some "Body", some 1, none, none⟩
        ⟨true, [], false⟩).1 = Except.error ⟨400, "storage failure"⟩ ∧
    (createPost seedDB ⟨some "Hello", some "Body", some 1, none, none⟩
        ⟨true, [], false⟩).2 = seedDB :=
  c2_hook_failure_rolls_back_and_propagates seedDB
    ⟨some "Hello", some "Body", some 1, none, none⟩ ⟨true, [], false⟩ rfl
    ⟨1, "Alice", "J", "alice@example.com"⟩ (by decide) "Hello" "Body" rfl rfl

/-- C2 (counterexample): the claim as stated is false — after a successful
insert of the Content row, the hook's failure does roll the insert back (no
Content row persists) and the failure is propagated to the caller as an
error, rather than being only logged. -/
theorem c2_hook_failure_not_isolated :
    (createPost seedDB ⟨some "Hello", some "Body", some 1, none, none⟩
        ⟨true, [], false⟩).1 = Except.error ⟨400, "storage failure"⟩ ∧
    (createPost seedDB ⟨some "Hello", some "Body", some 1, none, none⟩
        ⟨true, [], false⟩).2.posts = [] := by
  decide

/-- Inversion of a successful `findByPk` through an optional request id. -/
lemma bind_findUser_some {db : DB} {o : Option Nat} {u : UserRow}
    (hu : o.bind (findUser db) = some u) :
    ∃ uid, o = some uid ∧ findUser db uid = some u := by
  cases hq : o with
  | none => rw [hq] at hu; simp at hu
  | some uid => rw [hq] at hu; exact ⟨uid, rfl, by simpa using hu⟩

/-- Seeded history with one active post authored by Alice. -/
def activeOps : List Op :=
  seedOps ++ [.createPost ⟨some "Active post", some "Body", some 1, none, some .active⟩ noFaults]

/-- The state after `activeOps`. -/
def activeDB : DB := runOps activeOps

/-- C3 (amended): when the scope argument is omitted, getAllPosts behaves
exactly as if the 'active' scope had been supplied — the source defaults
`status = 'active'` — so the result ranges only over Content rows with
status 'active', not over all three statuses. -/
theorem c3_omitted_scope_defaults_to_active (db : DB) (page limit : Option Nat) :
    getAllPosts db ⟨page, limit, none⟩ = getAllPosts db ⟨page, limit, some "active"⟩ ∧
    ∀ r, getAllPosts db ⟨page, limit, none⟩ = Except.ok r →
      ∀ p ∈ r.posts, p.status = Status.active := by
  constructor
  · rfl
  · intro r hr p hp
    simp [getAllPosts, scopePred] at hr
    subst hr
    have hp1 : p ∈ orderByCreatedAtDesc
        (db.posts.filter (fun p => p.status == Status.active)) :=
      (List.drop_subset _ _) ((List.take_subset _ _) hp)
    have hp2 : p ∈ db.posts.filter (fun p => p.status == Status.active) :=
      (List.perm_insertionSort _ _).mem_iff.mp hp1
    have h3 := (List.mem_filter.mp hp2).2
    simpa using h3

/-- C3 (witness): the amended theorem at a concrete state with one active
post — the omitted-scope read equals the 'active'-scope read, and every row
it returns is active. -/
theorem c3_omitted_scope_witness :
    getAllPosts activeDB ⟨none, none, none⟩ = getAllPosts activeDB ⟨none, none, some "active"⟩ ∧
    ∀ p ∈ (PageResult.mk [⟨1, "Active post", "Body", 1, Status.active, 0⟩] 1 1).posts,
      p.status = Status.active :=
  ⟨(c3_omitted_scope_defaults_to_active activeDB none none).1,
   (c3_omitted_scope_defaults_to_active activeDB none none).2
     ⟨[⟨1, "Active post", "Body", 1, Status.active, 0⟩], 1, 1⟩ (by decide)⟩

/-- C3 (counterexample): the claim as stated is false — with a single draft
Content row stored, the scope-omitted read returns no rows at all (it is
filtered to status 'active'), so the result does not range over draft
rows. -/
theorem c3_omitted_scope_filters_out_draft :
    draftPostDB.posts.map (fun p => p.status) = [Status.draft] ∧
    getAllPosts draftPostDB ⟨none, none, none⟩ = Except.ok ⟨[], 0, 1⟩ := by
  decide

/-- C7 (amended): updating a Content row with a present, non-empty title
shorter than 5 characters is rejected with the validation error and the
stored state is unchanged.  (An empty-string title is falsy in the source's
`if (title && title.length < 5)` guard and slips through — see the
counterexample.) -/
theorem c7_short_nonempty_title_rejected (db : DB) (id : Nat) (req : UpdatePostReq)
    (t : String) (ht : req.title = some t) (hne : t ≠ "") (hlen : t.length < 5) :
    updatePost db id req =
      (Except.error ⟨400, "Title must be at least 5 characters long."⟩, db) := by
  rw [updatePost, ht]
  simp only [if_pos (And.intro hne hlen)]

/-- C7 (witness): a concrete short non-empty title is rejected and the state
is unchanged. -/
theorem c7_short_title_witness :
    updatePost draftPostDB 1 ⟨some "Hey", none, none⟩ =
      (Except.error ⟨400, "Title must be at least 5 characters long."⟩, draftPostDB) :=
  c7_short_nonempty_title_rejected draftPostDB 1 ⟨some "Hey", none, none⟩ "Hey" rfl
    (by decide) (by decide)

/-- C7 (counterexample): the claim as stated is false — the empty string has
fewer than 5 characters, yet updating with title `""` is not rejected: the
update succeeds (200 with the fresh row) and the stored title becomes
empty. -/
theorem c7_empty_title_not_rejected :
    draftPostDB.posts.map (fun p => p.title) = ["Hello world"] ∧
    (updatePost draftPostDB 1 ⟨some "", none, none⟩).1 =
      Except.ok (some ⟨1, "", "Body", 1, Status.draft, 0⟩) ∧
    (updatePost draftPostDB 1 ⟨some "", none, none⟩).2.posts.map (fun p => p.title) =
      [""] := by
  decide

/-- C9 (amended): a Content row can never be persisted with an absent title
or body — such a create is rejected with a 400 validation error and the
state is unchanged.  (The empty string, however, is not rejected — see the
counterexample.) -/
theorem c9_absent_title_or_body_rejected (db : DB) (req : CreateReq)
    (faults : CreateFaults) (h : req.title = none ∨ req.content = none) :
    (∃ e, (createPost db req faults).1 = Except.error e ∧ e.code = 400) ∧
    (createPost db req faults).2 = db := by
  cases hu : req.userId.bind (findUser db) with
  | none =>
    exact ⟨⟨⟨400, "User not found"⟩, by simp [createPost, hu], rfl⟩,
           by simp [createPost, hu]⟩
  | some u =>
    obtain ⟨uid, huid, hfind⟩ := bind_findUser_some hu
    rcases h with ht | hc
    · exact ⟨⟨⟨400, "notNull Violation"⟩, by simp [createPost, huid, hfind, ht], rfl⟩,
             by simp [createPost, huid, hfind, ht]⟩
    · cases ht2 : req.title with
      | none =>
        exact ⟨⟨⟨400, "notNull Violation"⟩, by simp [createPost, huid, hfind, ht2], rfl⟩,
               by simp [createPost, huid, hfind, ht2]⟩
      | some t =>
        exact ⟨⟨⟨400, "notNull Violation"⟩, by simp [createPost, huid, hfind, ht2, hc], rfl⟩,
               by simp [createPost, huid, hfind, ht2, hc]⟩

/-- C9 (witness): the amended theorem at a concrete state — creating with an
absent title is rejected with a 400 and nothing is persisted. -/
theorem c9_absent_title_witness :
    (∃ e, (createPost seedDB ⟨none, some "Body", some 1, none, none⟩ noFaults).1 =
        Except.error e ∧ e.code = 400) ∧
    (createPost seedDB ⟨none, some "Body", some 1, none, none⟩ noFaults).2 = seedDB :=
  c9_absent_title_or_body_rejected seedDB ⟨none, some "Body", some 1, none, none⟩
    noFaults (Or.inl rfl)

/-- Seeded history whose post has an empty title. -/
def emptyTitleOps : List Op :=
  seedOps ++ [.createPost ⟨some "", some "Body", some 1, none, none⟩ noFaults]

/-- C9 (counterexample): the claim as stated is false — a reachable state
contains a persisted Content row whose title is the empty string: creating
with title `""` passes the allowNull checks (they reject only absent values)
and the row is stored. -/
theorem c9_empty_title_persisted :
    Reachable (runOps emptyTitleOps) ∧
    (runOps emptyTitleOps).posts.map (fun p => p.title) = [""] :=
  ⟨⟨emptyTitleOps, rfl⟩, by decide⟩

/-- C10: a filtered Content read with a scope name other than 'active',
'draft' or 'archived' fails — `Post.scope` throws the invalid-scope error,
which the controller reports as a 500 — and the read never proceeds
unfiltered. -/
theorem c10_unknown_scope_fails (db : DB) (q : ListQuery) (s : String)
    (hs : q.status = some s)
    (h1 : s ≠ "active") (h2 : s ≠ "archived") (h3 : s ≠ "draft") :
    getAllPosts db q = Except.error ⟨500, "Invalid scope " ++ s ++ " called"⟩ := by
  rw [getAllPosts, hs]
  simp only [scopePred, Option.getD_some, if_neg h1, if_neg h2, if_neg h3]

/-- The ordering relation of the list endpoint: newer post first. -/
instance : IsTotal PostRow (fun a b => b.createdAt ≤ a.createdAt) :=
  ⟨fun a b => le_total b.createdAt a.createdAt⟩

/-- Transitivity of the newest-first ordering relation. -/
instance : IsTrans PostRow (fun a b => b.createdAt ≤ a.createdAt) :=
  ⟨fun _ _ _ hab hbc => le_trans hbc hab⟩

/-- Summing a function that is constantly one over a list gives its length. -/
lemma sum_map_ones {α} (l : List α) (f : α → Nat) (h : ∀ x ∈ l, f x = 1) :
    (l.map f).sum = l.length := by
  induction l with
  | nil => rfl
  | cons a l ih =>
    simp [h a (List.mem_cons_self a l),
          ih (fun x hx => h x (List.mem_cons_of_mem a hx)), Nat.add_comm]

/-- C4 (amended): over a store with exactly 5 active Content rows, the
'active'-scoped list with page 2 and pageSize 2 returns exactly 2 rows with
currentPage 2, ordered by creation time descending — unconditionally; but
totalPages is ceil of the include-join multiplied count over the pageSize,
so it equals 3 exactly when every matching row contributes a single joined
row (a unique author row and at most one resolved tag link); a matching row
with several linked tags inflates the count and totalPages beyond 3. -/
theorem c4_active_page2_pagination (db : DB)
    (h : (db.posts.filter (fun p => p.status == Status.active)).length = 5) :
    ∃ r, getAllPosts db ⟨some 2, some 2, some "active"⟩ = Except.ok r ∧
      r.posts.length = 2 ∧ r.currentPage = 2 ∧
      List.Sorted (fun a b => b.createdAt ≤ a.createdAt) r.posts ∧
      ((∀ p ∈ db.posts.filter (fun p => p.status == Status.active),
          includeRowCount db p = 1) → r.totalPages = 3) := by
  have hm : (orderByCreatedAtDesc
      (db.posts.filter (fun p => p.status == Status.active))).length = 5 := by
    rw [orderByCreatedAtDesc, (List.perm_insertionSort _ _).length_eq, h]
  have hsorted : List.Sorted (fun a b : PostRow => b.createdAt ≤ a.createdAt)
      (orderByCreatedAtDesc (db.posts.filter (fun p => p.status == Status.active))) :=
    List.sorted_insertionSort _ _
  refine ⟨⟨((orderByCreatedAtDesc
        (db.posts.filter (fun p => p.status == Status.active))).drop 2).take 2,
      (((db.posts.filter (fun p => p.status == Status.active)).map
        (includeRowCount db)).sum + 2 - 1) / 2, 2⟩,
      by simp [getAllPosts, scopePred], ?_, rfl, ?_, ?_⟩
  · simp [List.length_take, List.length_drop, hm]
  · exact List.Pairwise.sublist
      ((List.take_sublist _ _).trans (List.drop_sublist _ _)) hsorted
  · intro hsingle
    have hsum : ((db.posts.filter (fun p => p.status == Status.active)).map
        (includeRowCount db)).sum = 5 := by
      rw [sum_map_ones _ _ hsingle, h]
    rw [show (⟨((orderByCreatedAtDesc
        (db.posts.filter (fun p => p.status == Status.active))).drop 2).take 2,
      (((db.posts.filter (fun p => p.status == Status.active)).map
        (includeRowCount db)).sum + 2 - 1) / 2, 2⟩ : PageResult).totalPages =
      (((db.posts.filter (fun p => p.status == Status.active)).map
        (includeRowCount db)).sum + 2 - 1) / 2 from rfl, hsum]

/-- Seeded history with five active posts (ascending creation times). -/
def fiveActiveOps : List Op :=
  seedOps ++
    [.createPost ⟨some "First", some "Body", some 1, none, some .active⟩ noFaults,
     .createPost ⟨some "Second", some "Body", some 1, none, some .active⟩ noFaults,
     .createPost ⟨some "Third", some "Body", some 1, none, some .active⟩ noFaults,
     .createPost ⟨some "Fourth", some "Body", some 1, none, some .active⟩ noFaults,
     .createPost ⟨some "Fifth", some "Body", some 1, none, some .active⟩ noFaults]

/-- The state after `fiveActiveOps`. -/
def fiveActiveDB : DB := runOps fiveActiveOps

/-- C4 (witness): the amended pagination theorem at a concrete seeded store
of five tagless active posts, where every matching row contributes one
joined row and totalPages is 3. -/
theorem c4_active_page2_witness :
    (∀ p ∈ fiveActiveDB.posts.filter (fun p => p.status == Status.active),
        includeRowCount fiveActiveDB p = 1) ∧
    (∃ r, getAllPosts fiveActiveDB ⟨some 2, some 2, some "active"⟩ = Except.ok r ∧
      r.posts.length = 2 ∧ r.currentPage = 2 ∧
      List.Sorted (fun a b => b.createdAt ≤ a.createdAt) r.posts ∧
      ((∀ p ∈ fiveActiveDB.posts.filter (fun p => p.status == Status.active),
          includeRowCount fiveActiveDB p = 1) → r.totalPages = 3)) :=
  ⟨by decide, c4_active_page2_pagination fiveActiveDB (by decide)⟩

/-- Seeded history with five active posts of which the first carries three
tags. -/
def fiveActiveTaggedOps : List Op :=
  seedOps ++
    [.createPost ⟨some "First", some "Body", some 1, some ["x", "y", "z"],
        some .active⟩ noFaults,
     .createPost ⟨some "Second", some "Body", some 1, none, some .active⟩ noFaults,
     .createPost ⟨some "Third", some "Body", some 1, none, some .active⟩ noFaults,
     .createPost ⟨some "Fourth", some "Body", some 1, none, some .active⟩ noFaults,
     .createPost ⟨some "Fifth", some "Body", some 1, none, some .active⟩ noFaults]

/-- The state after `fiveActiveTaggedOps`. -/
def fiveActiveTaggedDB : DB := runOps fiveActiveTaggedOps

/-- C4 (counterexample): the claim as stated is false — this store has
exactly 5 active Content rows, yet listing with scope 'active', page 2 and
pageSize 2 reports totalPages 4, not 3: one active row carries three tags,
so findAndCountAll's count (no `distinct: true` under the includes) counts 7
join-multiplied rows and ceil(7 / 2) = 4. -/
theorem c4_tagged_store_inflates_totalPages :
    (fiveActiveTaggedDB.posts.filter (fun p => p.status == Status.active)).length = 5 ∧
    (getAllPosts fiveActiveTaggedDB ⟨some 2, some 2, some "active"⟩).map
      (fun r => (r.totalPages, r.currentPage)) = Except.ok (4, 2) := by
  decide

/-- C6: for the add-tag and remove-tag operations, a contentId or tagId that
does not resolve to an existing row fails with the single combined 404
response `postOrTagNotFound` — the same value for both causes, so they are
not distinguished — and the state is unchanged; and removing a tag that both
exists and is not linked to the (existing) content row succeeds as a no-op:
the 200 response is returned and the state is unchanged. -/
theorem c6_combined_not_found_and_noop_remove (db : DB) (postId tagId : Option Nat) :
    ((postId.bind (findPost db) = none ∨ tagId.bind (findTagById db) = none) →
      addTagToPost db postId tagId = (Except.error postOrTagNotFound, db) ∧
      removeTagFromPost db postId tagId = (Except.error postOrTagNotFound, db)) ∧
    (∀ p t, postId.bind (findPost db) = some p → tagId.bind (findTagById db) = some t →
      (∀ j ∈ db.postTags, ¬(j.postId = p.id ∧ j.tagId = t.id)) →
      removeTagFromPost db postId tagId =
        (Except.ok "Tag removed from post successfully", db)) := by
  constructor
  · intro h
    cases hp : postId.bind (findPost db) with
    | none =>
      exact ⟨by simp [addTagToPost, hp], by simp [removeTagFromPost, hp]⟩
    | some p =>
      cases ht : tagId.bind (findTagById db) with
      | none =>
        exact ⟨by simp [addTagToPost, hp, ht], by simp [removeTagFromPost, hp, ht]⟩
      | some t =>
        rcases h with h | h
        · rw [hp] at h; exact absurd h (by simp)
        · rw [ht] at h; exact absurd h (by simp)
  · intro p t hp ht hnone
    have hfilter : db.postTags.filter
        (fun j => !(j.postId == p.id && j.tagId == t.id)) = db.postTags := by
      apply List.filter_eq_self.mpr
      intro j hj
      have h2 := hnone j hj
      by_cases h3 : j.postId = p.id
      · have h4 : j.tagId ≠ t.id := fun h5 => h2 ⟨h3, h5⟩
        simp [h3, h4]
      · simp [h3]
    simp only [removeTagFromPost, hp, ht]
    rw [hfilter]

/-- Seeded history with one draft post and one tag that is never linked. -/
def postAndTagOps : List Op := draftPostOps ++ [.createTag (some "loose")]

/-- The state after `postAndTagOps`. -/
def postAndTagDB : DB := runOps postAndTagOps

/-- C6 (witness): at a concrete state — a missing post id yields the
combined 404 on both operations, and removing an existing but never-linked
tag from an existing post succeeds as a no-op with the state unchanged. -/
theorem c6_combined_not_found_witness :
    (addTagToPost postAndTagDB (some 99) (some 1) =
        (Except.error postOrTagNotFound, postAndTagDB) ∧
     removeTagFromPost postAndTagDB (some 99) (some 1) =
        (Except.error postOrTagNotFound, postAndTagDB)) ∧
    removeTagFromPost postAndTagDB (some 1) (some 1) =
      (Except.ok "Tag removed from post successfully", postAndTagDB) :=
  ⟨(c6_combined_not_found_and_noop_remove postAndTagDB (some 99) (some 1)).1
     (Or.inl (by decide)),
   (c6_combined_not_found_and_noop_remove postAndTagDB (some 1) (some 1)).2
     ⟨1, "Hello world", "Body", 1, Status.draft, 0⟩ ⟨1, "loose"⟩
     (by decide) (by decide) (by decide)⟩

/-- C10 (witness): a concrete unknown scope name fails with the reported
invalid-scope error. -/
theorem c10_unknown_scope_witness :
    getAllPosts seedDB ⟨none, none, some "bogus"⟩ =
      Except.error ⟨500, "Invalid scope " ++ "bogus" ++ " called"⟩ :=
  c10_unknown_scope_fails seedDB ⟨none, none, some "bogus"⟩ "bogus" rfl
    (by decide) (by decide) (by decide)

/-- The invariant on the Users table maintained by every boundary operation:
pairwise distinct ids and emails, ids below the auto-increment counter, and
stored emails of valid shape. -/
def UsersOK (db : DB) : Prop :=
  db.users.Pairwise (fun a b => a.id ≠ b.id ∧ a.email ≠ b.email) ∧
  ∀ u ∈ db.users, u.id < db.nextUserId ∧ isEmailShape u.email = true

/-- The freshly synced database satisfies the Users invariant. -/
lemma usersOK_empty : UsersOK emptyDB := by
  unfold UsersOK emptyDB
  simp

/-- The Users invariant only depends on the users table and its counter. -/
lemma usersOK_ext {db db' : DB} (hu : db'.users = db.users)
    (hn : db'.nextUserId = db.nextUserId) (h : UsersOK db) : UsersOK db' := by
  unfold UsersOK at h ⊢
  rw [hu, hn]
  exact h

/-- createUser preserves the Users invariant: an insert happens only when
the email is well-shaped and no stored row already has it. -/
lemma usersOK_createUser (db : DB) (req : CreateUserReq) (h : UsersOK db) :
    UsersOK (createUser db req).2 := by
  obtain ⟨hpw, hb⟩ := h
  cases hfn : req.firstName with
  | none => simpa [createUser, hfn] using ⟨hpw, hb⟩
  | some fn =>
    cases hln : req.lastName with
    | none => simpa [createUser, hfn, hln] using ⟨hpw, hb⟩
    | some ln =>
      cases hem : req.email with
      | none => simpa [createUser, hfn, hln, hem] using ⟨hpw, hb⟩
      | some em =>
        cases hshape : isEmailShape em with
        | false => simpa [createUser, hfn, hln, hem, hshape] using ⟨hpw, hb⟩
        | true =>
          cases hdup : db.users.any (fun v => v.email == em) with
          | true => simpa [createUser, hfn, hln, hem, hshape, hdup] using ⟨hpw, hb⟩
          | false =>
            have hgoal : (createUser db req).2 =
                { db with users := db.users ++ [⟨db.nextUserId, fn, ln, em⟩]
                          nextUserId := db.nextUserId + 1 } := by
              simp [createUser, hfn, hln, hem, hshape, hdup]
            rw [hgoal]
            have hnodup : ∀ v ∈ db.users, v.email ≠ em := by
              intro v hv hveq
              rw [List.any_eq_false] at hdup
              exact hdup v hv (by simp [hveq])
            unfold UsersOK
            constructor
            · rw [List.pairwise_append]
              refine ⟨hpw, by simp, ?_⟩
              intro a ha b hb2
              simp only [List.mem_singleton] at hb2
              subst hb2
              exact ⟨Nat.ne_of_lt (hb a ha).1, hnodup a ha⟩
            · intro u hu
              rcases List.mem_append.mp hu with hu | hu
              · exact ⟨Nat.lt_succ_of_lt (hb u hu).1, (hb u hu).2⟩
              · simp only [List.mem_singleton] at hu
                subst hu
                exact ⟨Nat.lt_succ_self _, hshape⟩

/-- deleteUser preserves the Users invariant (filtering a pairwise list). -/
lemma usersOK_deleteUser (db : DB) (id : Nat) (h : UsersOK db) :
    UsersOK (deleteUser db id).2 := by
  obtain ⟨hpw, hb⟩ := h
  cases hex : db.users.any (fun v => v.id == id) with
  | false => simpa [deleteUser, hex] using ⟨hpw, hb⟩
  | true =>
    have hgoal : (deleteUser db id).2 =
        { db with users := db.users.filter (fun v => v.id != id) } := by
      simp [deleteUser, hex]
    rw [hgoal]
    unfold UsersOK
    constructor
    · exact List.Pairwise.sublist (List.filter_sublist _) hpw
    · intro u hu
      exact hb u (List.mem_of_mem_filter hu)


/-- The UPDATE never changes a row's primary key. -/
lemma applyUserUpdate_id (req : UpdateUserReq) (id : Nat) (u : UserRow) :
    (applyUserUpdate req id u).id = u.id := by
  unfold applyUserUpdate
  split <;> rfl

/-- With no email in the SET clause, emails are unchanged. -/
lemma applyUserUpdate_email_none (req : UpdateUserReq) (hreq : req.email = none)
    (id : Nat) (u : UserRow) : (applyUserUpdate req id u).email = u.email := by
  unfold applyUserUpdate
  split <;> simp [hreq]

/-- Rows not matching the WHERE clause are unchanged. -/
lemma applyUserUpdate_email_of_ne (req : UpdateUserReq) (id : Nat) (u : UserRow)
    (h : u.id ≠ id) : (applyUserUpdate req id u).email = u.email := by
  unfold applyUserUpdate
  rw [if_neg (by simpa using h)]

/-- The matching row takes the supplied email. -/
lemma applyUserUpdate_email_of_eq (req : UpdateUserReq) (em : String)
    (hreq : req.email = some em) (id : Nat) (u : UserRow)
    (h : u.id = id) : (applyUserUpdate req id u).email = em := by
  unfold applyUserUpdate
  rw [if_pos (by simpa using h)]
  simp [hreq]

/-- updateUser preserves the Users invariant: the unique-constraint check
rejects an update that would duplicate another row's email. -/
lemma usersOK_updateUser (db : DB) (id : Nat) (req : UpdateUserReq) (h : UsersOK db) :
    UsersOK (updateUser db id req).2 := by
  obtain ⟨hpw, hb⟩ := h
  cases hem : req.email with
  | none =>
    cases hex : db.users.any (fun v => v.id == id) with
    | false => simpa [updateUser, hem, hex] using ⟨hpw, hb⟩
    | true =>
      have hgoal : (updateUser db id req).2 =
          { db with users := db.users.map (applyUserUpdate req id) } := by
        simp [updateUser, hem, hex]
      rw [hgoal]
      unfold UsersOK
      constructor
      · rw [List.pairwise_map]
        refine hpw.imp_of_mem ?_
        intro a b ha hb2 hab
        rw [applyUserUpdate_id, applyUserUpdate_id,
            applyUserUpdate_email_none req hem, applyUserUpdate_email_none req hem]
        exact hab
      · intro u hu
        obtain ⟨v, hv, rfl⟩ := List.mem_map.mp hu
        rw [applyUserUpdate_id, applyUserUpdate_email_none req hem]
        exact hb v hv
  | some em =>
    cases hshape : isEmailShape em with
    | false => simpa [updateUser, hem, hshape] using ⟨hpw, hb⟩
    | true =>
      cases hex : db.users.any (fun v => v.id == id) with
      | false => simpa [updateUser, hem, hshape, hex] using ⟨hpw, hb⟩
      | true =>
        cases hdup : db.users.any (fun v => v.email == em && v.id != id) with
        | true => simpa [updateUser, hem, hshape, hex, hdup] using ⟨hpw, hb⟩
        | false =>
          have hgoal : (updateUser db id req).2 =
              { db with users := db.users.map (applyUserUpdate req id) } := by
            simp [updateUser, hem, hshape, hex, hdup]
          rw [hgoal]
          have hnodup : ∀ v ∈ db.users, v.id ≠ id → v.email ≠ em := by
            intro v hv hvid hveq
            rw [List.any_eq_false] at hdup
            exact hdup v hv (by simp [hveq, hvid])
          unfold UsersOK
          constructor
          · rw [List.pairwise_map]
            refine hpw.imp_of_mem ?_
            intro a b ha hb2 hab
            rw [applyUserUpdate_id, applyUserUpdate_id]
            refine ⟨hab.1, ?_⟩
            by_cases haid : a.id = id
            · have hbid : b.id ≠ id := fun hc => hab.1 (haid.trans hc.symm)
              rw [applyUserUpdate_email_of_eq req em hem id a haid,
                  applyUserUpdate_email_of_ne req id b hbid]
              exact fun hc => hnodup b hb2 hbid hc.symm
            · rw [applyUserUpdate_email_of_ne req id a haid]
              by_cases hbid : b.id = id
              · rw [applyUserUpdate_email_of_eq req em hem id b hbid]
                exact hnodup a ha haid
              · rw [applyUserUpdate_email_of_ne req id b hbid]
                exact hab.2
          · intro u hu
            obtain ⟨v, hv, rfl⟩ := List.mem_map.mp hu
            rw [applyUserUpdate_id]
            refine ⟨(hb v hv).1, ?_⟩
            by_cases hvid : v.id = id
            · rw [applyUserUpdate_email_of_eq req em hem id v hvid]
              exact hshape
            · rw [applyUserUpdate_email_of_ne req id v hvid]
              exact (hb v hv).2


/-- createPost never touches the users table or its counter. -/
lemma createPost_users_frame (db : DB) (req : CreateReq) (faults : CreateFaults) :
    (createPost db req faults).2.users = db.users ∧
    (createPost db req faults).2.nextUserId = db.nextUserId := by
  cases hu : req.userId.bind (findUser db) with
  | none => simp [createPost, hu]
  | some u =>
    obtain ⟨uid, huid, hfind⟩ := bind_findUser_some hu
    cases ht : req.title with
    | none => simp [createPost, huid, hfind, ht]
    | some t =>
      cases hc : req.content with
      | none => simp [createPost, huid, hfind, ht, hc]
      | some c =>
        cases hh : faults.hookFails with
        | true => simp [createPost, huid, hfind, ht, hc, hh]
        | false =>
          cases htg : req.tags with
          | none => simp [createPost, huid, hfind, ht, hc, hh, htg]
          | some tagNames =>
            obtain ⟨hus, -, -, -, hnu, -, -, -⟩ :=
              findOrCreateTags_frame tagNames db faults.tagFails
            by_cases hl : tagNames.length > 0 <;>
              cases hrb : (findOrCreateTags db tagNames faults.tagFails).2.2 <;>
              cases hlf : faults.linkFails <;>
              simp [createPost, huid, hfind, ht, hc, hh, htg, hl, hrb, hlf, hus, hnu]

/-- Every boundary operation preserves the Users invariant. -/
lemma usersOK_step (db : DB) (op : Op) (h : UsersOK db) : UsersOK (step db op) := by
  cases op with
  | createUser req => exact usersOK_createUser db req h
  | updateUser id req => exact usersOK_updateUser db id req h
  | deleteUser id => exact usersOK_deleteUser db id h
  | createProfile bio userId =>
    show UsersOK (createProfile db bio userId).2
    cases hu : userId.bind (findUser db) with
    | none => simpa [createProfile, hu] using h
    | some u => exact usersOK_ext (by simp [createProfile, hu]) (by simp [createProfile, hu]) h
  | updateProfile userId bio =>
    show UsersOK (updateProfile db userId bio).2
    cases hex : db.profiles.any (fun p => p.userId == userId) with
    | false => simpa [updateProfile, hex] using h
    | true => exact usersOK_ext (by simp [updateProfile, hex]) (by simp [updateProfile, hex]) h
  | deleteProfile userId =>
    show UsersOK (deleteProfile db userId).2
    cases hex : db.profiles.any (fun p => p.userId == userId) with
    | false => simpa [deleteProfile, hex] using h
    | true => exact usersOK_ext (by simp [deleteProfile, hex]) (by simp [deleteProfile, hex]) h
  | createPost req faults =>
    show UsersOK (createPost db req faults).2
    obtain ⟨h1, h2⟩ := createPost_users_frame db req faults
    exact usersOK_ext h1 h2 h
  | updatePost id req =>
    show UsersOK (updatePost db id req).2
    cases ht : req.title with
    | some t =>
      by_cases hcond : t ≠ "" ∧ t.length < 5
      · simpa [updatePost, ht, hcond] using h
      · by_cases hex : db.posts.any (fun p => p.id == id)
        · exact usersOK_ext (by simp [updatePost, updatePost.updatePostApply, ht, hcond, hex])
            (by simp [updatePost, updatePost.updatePostApply, ht, hcond, hex]) h
        · simpa [updatePost, updatePost.updatePostApply, ht, hcond, hex] using h
    | none =>
      by_cases hex : db.posts.any (fun p => p.id == id)
      · exact usersOK_ext (by simp [updatePost, updatePost.updatePostApply, ht, hex])
          (by simp [updatePost, updatePost.updatePostApply, ht, hex]) h
      · simpa [updatePost, updatePost.updatePostApply, ht, hex] using h
  | deletePost id =>
    show UsersOK (deletePost db id).2
    by_cases hex : db.posts.any (fun p => p.id == id)
    · exact usersOK_ext (by simp [deletePost, hex]) (by simp [deletePost, hex]) h
    · simpa [deletePost, hex] using h
  | createTag name =>
    show UsersOK (createTag db name).2
    cases name with
    | none => simpa [createTag] using h
    | some n => exact usersOK_ext (by simp [createTag]) (by simp [createTag]) h
  | updateTag id name =>
    show UsersOK (updateTag db id name).2
    by_cases hex : db.tags.any (fun t => t.id == id)
    · exact usersOK_ext (by simp [updateTag, hex]) (by simp [updateTag, hex]) h
    · simpa [updateTag, hex] using h
  | deleteTag id =>
    show UsersOK (deleteTag db id).2
    by_cases hex : db.tags.any (fun t => t.id == id)
    · exact usersOK_ext (by simp [deleteTag, hex]) (by simp [deleteTag, hex]) h
    · simpa [deleteTag, hex] using h
  | addTagToPost postId tagId =>
    show UsersOK (addTagToPost db postId tagId).2
    cases hp : postId.bind (findPost db) with
    | none => simpa [addTagToPost, hp] using h
    | some p =>
      cases htg : tagId.bind (findTagById db) with
      | none => simpa [addTagToPost, hp, htg] using h
      | some t =>
        by_cases hex : db.postTags.any (fun j => j.postId == p.id && j.tagId == t.id)
        · simpa [addTagToPost, hp, htg, hex] using h
        · exact usersOK_ext (by simp [addTagToPost, hp, htg, hex])
            (by simp [addTagToPost, hp, htg, hex]) h
  | removeTagFromPost postId tagId =>
    show UsersOK (removeTagFromPost db postId tagId).2
    cases hp : postId.bind (findPost db) with
    | none => simpa [removeTagFromPost, hp] using h
    | some p =>
      cases htg : tagId.bind (findTagById db) with
      | none => simpa [removeTagFromPost, hp, htg] using h
      | some t =>
        exact usersOK_ext (by simp [removeTagFromPost, hp, htg])
          (by simp [removeTagFromPost, hp, htg]) h

/-- The Users invariant holds in every state produced from the synced
database by a sequence of boundary operations. -/
lemma usersOK_runOps (ops : List Op) : UsersOK (runOps ops) := by
  have hgen : ∀ (l : List Op) (db : DB), UsersOK db → UsersOK (l.foldl step db) := by
    intro l
    induction l with
    | nil => intro db h; exact h
    | cons op l ih =>
      intro db h
      exact ih (step db op) (usersOK_step db op h)
  exact hgen ops emptyDB usersOK_empty

/-- C5: at any reachable state, an Account-creation attempt whose email
equals a stored Account's email is rejected with a 400 validation error and
the state (in particular the users table) is unchanged; and the reachable
state itself has pairwise distinct emails — at most one Account row per
email value. -/
theorem c5_duplicate_email_rejected (db : DB) (hreach : Reachable db)
    (req : CreateUserReq) (u : UserRow) (hu : u ∈ db.users)
    (he : req.email = some u.email) :
    (∃ e, (createUser db req).1 = Except.error e ∧ e.code = 400) ∧
    (createUser db req).2 = db ∧
    db.users.Pairwise (fun a b => a.email ≠ b.email) := by
  obtain ⟨ops, hops⟩ := hreach
  have hok : UsersOK db := hops ▸ usersOK_runOps ops
  obtain ⟨hpw, hb⟩ := hok
  have hshape : isEmailShape u.email = true := (hb u hu).2
  have hany : db.users.any (fun v => v.email == u.email) = true :=
    List.any_eq_true.mpr ⟨u, hu, by simp⟩
  have hx : ∃ e, createUser db req = (Except.error e, db) ∧ e.code = 400 := by
    cases hfn : req.firstName with
    | none => exact ⟨⟨400, "notNull Violation"⟩, by simp [createUser, hfn], rfl⟩
    | some fn =>
      cases hln : req.lastName with
      | none => exact ⟨⟨400, "notNull Violation"⟩, by simp [createUser, hfn, hln], rfl⟩
      | some ln =>
        exact ⟨⟨400, "Validation error: email must be unique"⟩,
          by simp [createUser, hfn, hln, he, hshape, hany], rfl⟩
  obtain ⟨e, he2, hcode⟩ := hx
  exact ⟨⟨e, by rw [he2], hcode⟩, by rw [he2],
         hpw.imp (fun hab => hab.2)⟩


/-- C5 (witness): the theorem at the concrete seeded state — re-registering
Alice's email is rejected with a 400 and no row is added. -/
theorem c5_duplicate_email_witness :
    (∃ e, (createUser seedDB ⟨some "Bob", some "S", some "alice@example.com"⟩).1 =
        Except.error e ∧ e.code = 400) ∧
    (createUser seedDB ⟨some "Bob", some "S", some "alice@example.com"⟩).2 = seedDB ∧
    seedDB.users.Pairwise (fun a b => a.email ≠ b.email) :=
  c5_duplicate_email_rejected seedDB ⟨seedOps, rfl⟩
    ⟨some "Bob", some "S", some "alice@example.com"⟩
    ⟨1, "Alice", "J", "alice@example.com"⟩ (by decide) rfl

/-- Well-formedness of the stored state exploited by the round-trip claim:
post ids and join-row post references lie below the post id counter, tag ids
lie below the tag id counter, and tag ids are unique.  Every state reachable
from the synced database satisfies this; the claims hypothesize it. -/
def WF (db : DB) : Prop :=
  (∀ p ∈ db.posts, p.id < db.nextPostId) ∧
  (∀ j ∈ db.postTags, j.postId < db.nextPostId) ∧
  (∀ t ∈ db.tags, t.id < db.nextTagId) ∧
  (∀ s ∈ db.tags, ∀ t ∈ db.tags, s.id = t.id → s = t)

/-- A lookup skips a prefix on which the predicate is everywhere false. -/
lemma find?_append_of_forall_false {α} (p : α → Bool) (l1 l2 : List α)
    (h : ∀ a ∈ l1, p a = false) : (l1 ++ l2).find? p = l2.find? p := by
  induction l1 with
  | nil => rfl
  | cons a l ih =>
    rw [List.cons_append, List.find?_cons_of_neg _ (by simp [h a (List.mem_cons_self a l)])]
    exact ih (fun b hb => h b (List.mem_cons_of_mem a hb))

/-- In a table with unique ids, looking a row up by its id finds it. -/
lemma find?_id_unique {l : List TagRow}
    (huniq : ∀ s ∈ l, ∀ t ∈ l, s.id = t.id → s = t)
    {t : TagRow} (ht : t ∈ l) : l.find? (fun s => s.id == t.id) = some t := by
  induction l with
  | nil => cases ht
  | cons a l ih =>
    by_cases hat : a.id = t.id
    · rw [List.find?_cons_of_pos _ (by simp [hat])]
      rw [huniq a (List.mem_cons_self a l) t ht hat]
    · rw [List.find?_cons_of_neg _ (by simp [hat])]
      have ht2 : t ∈ l := by
        rcases List.mem_cons.mp ht with h | h
        · exact absurd (by rw [h]) hat
        · exact h
      exact ih (fun s hs t2 h2 => huniq s (List.mem_cons_of_mem a hs) t2
        (List.mem_cons_of_mem a h2)) ht2

/-- Specification of the find-or-create loop: when no call rejected, the
resolved rows carry exactly the requested names in order and all live in the
final tags table; the loop preserves the tag id bound and id uniqueness. -/
lemma findOrCreateTags_spec : ∀ (names : List String) (db : DB) (fs : List Bool),
    (∀ t ∈ db.tags, t.id < db.nextTagId) →
    (∀ s ∈ db.tags, ∀ t ∈ db.tags, s.id = t.id → s = t) →
    ((findOrCreateTags db names fs).2.2 = false →
      (findOrCreateTags db names fs).2.1.map TagRow.name = names ∧
      ∀ t ∈ (findOrCreateTags db names fs).2.1, t ∈ (findOrCreateTags db names fs).1.tags) ∧
    (∀ t ∈ (findOrCreateTags db names fs).1.tags,
      t.id < (findOrCreateTags db names fs).1.nextTagId) ∧
    (∀ s ∈ (findOrCreateTags db names fs).1.tags,
      ∀ t ∈ (findOrCreateTags db names fs).1.tags, s.id = t.id → s = t) := by
  intro names
  induction names with
  | nil =>
    intro db fs hbound huniq
    exact ⟨fun _ => ⟨rfl, by simp [findOrCreateTags]⟩, hbound, huniq⟩
  | cons n ns ih =>
    intro db fs hbound huniq
    simp only [findOrCreateTags]
    split
    · -- this find-or-create rejects: flag is true
      obtain ⟨-, hb2, hu2⟩ := ih db fs.tail hbound huniq
      exact ⟨fun hcontra => by simp at hcontra, hb2, hu2⟩
    · split
      · -- found an existing tag t
        rename_i t hfound
        obtain ⟨hmap, hb2, hu2⟩ := ih db fs.tail hbound huniq
        obtain ⟨ts0, hgrow⟩ := findOrCreateTags_tags_grow ns db fs.tail
        refine ⟨?_, hb2, hu2⟩
        intro hff
        simp only at hff
        obtain ⟨hnames, hmem⟩ := hmap hff
        have htname : t.name = n := by
          have := List.find?_some hfound
          simpa using this
        have htmem : t ∈ db.tags := List.mem_of_find?_eq_some hfound
        refine ⟨by simp [htname, hnames], ?_⟩
        intro t2 ht2
        rcases List.mem_cons.mp ht2 with h | h
        · rw [h, hgrow]
          exact List.mem_append_left _ htmem
        · exact hmem t2 h
      · -- no tag with this name: a fresh one is created and committed
        have hbound1 : ∀ t ∈ db.tags ++ [⟨db.nextTagId, n⟩],
            t.id < db.nextTagId + 1 := by
          intro t ht
          rcases List.mem_append.mp ht with h | h
          · exact Nat.lt_succ_of_lt (hbound t h)
          · simp only [List.mem_singleton] at h
            rw [h]
            exact Nat.lt_succ_self _
        have huniq1 : ∀ s ∈ db.tags ++ [⟨db.nextTagId, n⟩],
            ∀ t ∈ db.tags ++ [⟨db.nextTagId, n⟩], s.id = t.id → s = t := by
          intro s hs t ht hst
          rcases List.mem_append.mp hs with hs | hs <;>
            rcases List.mem_append.mp ht with ht | ht
          · exact huniq s hs t ht hst
          · simp only [List.mem_singleton] at ht
            subst ht
            exact absurd (hbound s hs)
              (by rw [show s.id = db.nextTagId from hst]; exact Nat.lt_irrefl _)
          · simp only [List.mem_singleton] at hs
            subst hs
            exact absurd (hbound t ht)
              (by rw [show t.id = db.nextTagId from hst.symm]; exact Nat.lt_irrefl _)
          · simp only [List.mem_singleton] at hs ht
            rw [hs, ht]
        obtain ⟨hmap, hb2, hu2⟩ := ih { db with tags := db.tags ++ [⟨db.nextTagId, n⟩]
                                                nextTagId := db.nextTagId + 1 }
          fs.tail hbound1 huniq1
        obtain ⟨ts0, hgrow⟩ := findOrCreateTags_tags_grow ns
          { db with tags := db.tags ++ [⟨db.nextTagId, n⟩]
                    nextTagId := db.nextTagId + 1 } fs.tail
        refine ⟨?_, hb2, hu2⟩
        intro hff
        simp only at hff
        obtain ⟨hnames, hmem⟩ := hmap hff
        refine ⟨by simp [hnames], ?_⟩
        intro t2 ht2
        rcases List.mem_cons.mp ht2 with h | h
        · rw [h, hgrow]
          exact List.mem_append_left _ (List.mem_append_right _ (by simp))
        · exact hmem t2 h


/-- C8: a successful createPost with the tag names a and b, immediately
followed by a read of the created Content by its id, returns a view whose
attached tag-name set is exactly those two names (membership equivalence,
order irrelevant). -/
theorem c8_create_then_read_roundtrip (db : DB) (hwf : WF db) (req : CreateReq)
    (hreqtags : req.tags = some ["a", "b"]) (post : PostRow)
    (hok : (createPost db req noFaults).1 = Except.ok post) :
    ∃ v, getPostById (createPost db req noFaults).2 post.id = Except.ok v ∧
      ∀ n, (n ∈ v.tags.map TagRow.name ↔ n ∈ (["a", "b"] : List String)) := by
  obtain ⟨hpWF, hjWF, htWF, huWF⟩ := hwf
  cases hu : req.userId.bind (findUser db) with
  | none => rw [createPost] at hok; simp [hu] at hok
  | some u =>
    obtain ⟨uid, huid, hfind⟩ := bind_findUser_some hu
    cases ht : req.title with
    | none => rw [createPost] at hok; simp [huid, hfind, ht] at hok
    | some t =>
      cases hc : req.content with
      | none => rw [createPost] at hok; simp [huid, hfind, ht, hc] at hok
      | some c =>
        cases hrb : (findOrCreateTags db ["a", "b"] []).2.2 with
        | true =>
          rw [createPost] at hok
          simp [huid, hfind, ht, hc, hreqtags, noFaults, hrb] at hok
        | false =>
          have hpost : post =
              ⟨db.nextPostId, t, c, uid, req.status.getD Status.draft, db.clock⟩ := by
            rw [createPost] at hok
            simp [huid, hfind, ht, hc, hreqtags, noFaults, hrb] at hok
            exact hok.symm
          have hdb2 : (createPost db req noFaults).2 =
              { (findOrCreateTags db ["a", "b"] []).1 with
                posts := (findOrCreateTags db ["a", "b"] []).1.posts ++
                  [⟨db.nextPostId, t, c, uid, req.status.getD Status.draft, db.clock⟩]
                postTags := (findOrCreateTags db ["a", "b"] []).1.postTags ++
                  (findOrCreateTags db ["a", "b"] []).2.1.map
                    (fun tg => PostTagRow.mk db.nextPostId tg.id)
                nextPostId := (findOrCreateTags db ["a", "b"] []).1.nextPostId + 1
                clock := (findOrCreateTags db ["a", "b"] []).1.clock + 1 } := by
            rw [createPost]
            simp [huid, hfind, ht, hc, hreqtags, noFaults, hrb]
          obtain ⟨hus, hpr, hps, hjs, hnu, hnp, hnpid, hck⟩ :=
            findOrCreateTags_frame ["a", "b"] db []
          obtain ⟨hspec1, hb2, hu2⟩ := findOrCreateTags_spec ["a", "b"] db [] htWF huWF
          obtain ⟨hnames, hmem⟩ := hspec1 hrb
          rcases hts : (findOrCreateTags db ["a", "b"] []).2.1 with _ | ⟨ta, _ | ⟨tb, _ | ⟨x, xs⟩⟩⟩
          · rw [hts] at hnames; simp at hnames
          · rw [hts] at hnames; simp at hnames
          · rw [hts] at hnames hmem
            simp only [List.map_cons, List.map_nil, List.cons.injEq, and_true] at hnames
            obtain ⟨hna, hnb⟩ := hnames
            have hposts2 : (createPost db req noFaults).2.posts = db.posts ++ [post] := by
              rw [hdb2, hpost]
              show (findOrCreateTags db ["a", "b"] []).1.posts ++ _ = _
              rw [hps]
            have hjoins2 : (createPost db req noFaults).2.postTags =
                db.postTags ++ [⟨db.nextPostId, ta.id⟩, ⟨db.nextPostId, tb.id⟩] := by
              rw [hdb2]
              show (findOrCreateTags db ["a", "b"] []).1.postTags ++ _ = _
              rw [hjs, hts]
              rfl
            have htags2 : (createPost db req noFaults).2.tags =
                (findOrCreateTags db ["a", "b"] []).1.tags := by
              rw [hdb2]
            have hpid : post.id = db.nextPostId := by rw [hpost]
            have hfp : findPost (createPost db req noFaults).2 post.id = some post := by
              unfold findPost
              rw [hposts2]
              rw [find?_append_of_forall_false _ _ _ (fun p hp =>
                beq_eq_false_iff_ne.mpr (by rw [hpid]; exact Nat.ne_of_lt (hpWF p hp)))]
              rw [List.find?_cons_of_pos _ (by simp)]
            have hfilter : (createPost db req noFaults).2.postTags.filter
                (fun j => j.postId == post.id) =
                [⟨db.nextPostId, ta.id⟩, ⟨db.nextPostId, tb.id⟩] := by
              rw [hjoins2, List.filter_append]
              have h1 : db.postTags.filter (fun j => j.postId == post.id) = [] := by
                rw [List.filter_eq_nil_iff]
                intro j hj
                simp only [hpid]
                simp [Nat.ne_of_lt (hjWF j hj)]
              rw [h1]
              simp [hpid]
            have hta : findTagById (createPost db req noFaults).2 ta.id = some ta := by
              unfold findTagById
              rw [htags2]
              exact find?_id_unique hu2 (hmem ta (by simp))
            have htb : findTagById (createPost db req noFaults).2 tb.id = some tb := by
              unfold findTagById
              rw [htags2]
              exact find?_id_unique hu2 (hmem tb (by simp))
            have htagsList : ((createPost db req noFaults).2.postTags.filter
                (fun j => j.postId == post.id)).filterMap
                (fun j => findTagById (createPost db req noFaults).2 j.tagId) = [ta, tb] := by
              rw [hfilter]
              simp [hta, htb]
            refine ⟨⟨post, findUser (createPost db req noFaults).2 post.userId, [ta, tb]⟩,
              ?_, ?_⟩
            · rw [getPostById, hfp]
              simp only [htagsList]
            · intro n
              simp [hna, hnb]
          · rw [hts] at hnames
            simp at hnames


/-- C8 (witness): the round-trip theorem at the concrete seeded state —
creating with tags ["a", "b"] and reading the new post back returns exactly
those two tag names. -/
theorem c8_create_then_read_witness :
    ∃ v, getPostById (createPost seedDB
        ⟨some "Hello", some "Body", some 1, some ["a", "b"], none⟩ noFaults).2
        (⟨1, "Hello", "Body", 1, Status.draft, 0⟩ : PostRow).id = Except.ok v ∧
      ∀ n, (n ∈ v.tags.map TagRow.name ↔ n ∈ (["a", "b"] : List String)) :=
  c8_create_then_read_roundtrip seedDB
    ⟨by decide, by decide, by decide, by decide⟩
    ⟨some "Hello", some "Body", some 1, some ["a", "b"], none⟩ rfl
    ⟨1, "Hello", "Body", 1, Status.draft, 0⟩ (by decide)

end NodeOrmDemo
